import Mathlib

/-!
Verification development for PrusaSlicer `src/slic3r/GUI/GUI_Utils.cpp`.

The file embeds, as executable Lean definitions, the operations of that
translation unit that the specification talks about:

* `WindowMetrics` with `serialize`, `deserialize` and `sanitize_for_display`
  (the tokenizer `unescape_strings_cstyle` is declared in
  `libslic3r/Config.hpp`, whose implementation is not part of the supplied
  sources, so it is modelled from the specification's description of the
  field format; `boost::lexical_cast<int>` is modelled after its documented
  stream-extraction semantics, including the overflow check for 32-bit
  `int`);
* `get_dpi_for_window` over an explicit Windows-API environment, both as a
  pure function and with the function-pointer cache of the C++ `static`
  locals made explicit;
* `on_window_geometry` as an event-trace model of the three platform
  branches;
* `CheckboxFileDialog` with its extra-control factory.
-/

/-! ### Integers as decimal tokens (`boost::lexical_cast<int>` model) -/

/-- Numeric value of a decimal digit character. -/
def digitVal (c : Char) : Nat := c.toNat - 48

/-- Value of a list of decimal digit characters, most significant first. -/
def digitsVal (l : List Char) : Nat := l.foldl (fun a c => 10 * a + digitVal c) 0

/-- Strict parse of a non-empty all-digit token into a natural number. -/
def parseNatTok (l : List Char) : Option Nat :=
  if l.isEmpty || !(l.all Char.isDigit) then none else some (digitsVal l)

/-- Stream extraction of an optionally signed decimal integer, consuming the
whole token (as `boost::lexical_cast<int>` requires). -/
def parseIntTok (l : List Char) : Option Int :=
  match l with
  | [] => none
  | c :: rest =>
    if c = '-' then (parseNatTok rest).map (fun n => -(n : Int))
    else if c = '+' then (parseNatTok rest).map (fun n => (n : Int))
    else (parseNatTok (c :: rest)).map (fun n => (n : Int))

/-- `INT_MIN` of the 32-bit `int` used by the C++ code. -/
def INT_MIN : Int := -(2 ^ 31)

/-- `INT_MAX` of the 32-bit `int` used by the C++ code. -/
def INT_MAX : Int := 2 ^ 31 - 1

/-- `boost::lexical_cast<int>` on a token: strict signed decimal parse with
the out-of-range values rejected (the cast throws `bad_lexical_cast` on
overflow, which `WindowMetrics::deserialize` turns into an empty result). -/
def lexical_cast_int (l : List Char) : Option Int :=
  match parseIntTok l with
  | none => none
  | some v => if v < INT_MIN || INT_MAX < v then none else some v

/-- The ten decimal digit characters. -/
def digitChars : List Char := ['0', '1', '2', '3', '4', '5', '6', '7', '8', '9']

/-- Digit character of a value `< 10`. -/
def digitCh (d : Nat) : Char := digitChars.getD d '0'

/-- Decimal rendering worker: structural recursion on a fuel argument so the
function reduces in the kernel; `fuel > n` always suffices. -/
def renderNatAux : Nat → Nat → List Char
  | 0, _ => []
  | fuel + 1, n =>
    if n < 10 then [digitCh n]
    else renderNatAux fuel (n / 10) ++ [digitCh (n % 10)]

/-- Decimal rendering of a natural number, as `boost::format` prints the
non-negative `int` fields. -/
def renderNat (n : Nat) : List Char := renderNatAux (n + 1) n

/-- Decimal rendering of an integer, as `boost::format "%1%"` prints an
`int`. -/
def renderInt (i : Int) : List Char :=
  if i < 0 then '-' :: renderNat (-i).toNat else renderNat i.toNat

/-! ### Field splitting

`WindowMetrics::deserialize` tokenizes with `unescape_strings_cstyle`
(declared in `libslic3r/Config.hpp`; its implementation is not among the
supplied sources).

Modelled from the spec: the input is split "on the same delimiter used for
serialization", i.e. the five fields are "semicolon-and-space-separated";
a field's surrounding space is not part of its numeric text. -/

/-- Split a character list at every `';'`; always returns at least one
(possibly empty) field. -/
def splitSemi : List Char → List (List Char)
  | [] => [[]]
  | c :: cs =>
    let r := splitSemi cs
    if c = ';' then [] :: r
    else
      match r with
      | [] => [[c]]
      | t :: ts => (c :: t) :: ts

/-- Drop the blanks that follow a `';'` separator before the next field. -/
def dropLeadingWs (l : List Char) : List Char :=
  l.dropWhile (fun c => c == ' ' || c == '\t')

/-- Modelled from the spec: the tokenizer of `WindowMetrics::deserialize`
(`unescape_strings_cstyle`), producing the semicolon-separated fields with
the separator's trailing blanks removed. -/
def split_fields (s : List Char) : List (List Char) :=
  (splitSemi s).map dropLeadingWs

/-! ### WindowMetrics -/

/-- `wxRect`: position and size with `int` fields (wxWidgets `gdicmn.h`). -/
structure WxRect where
  x : Int
  y : Int
  width : Int
  height : Int
deriving DecidableEq, Repr

/-- `wxRect::GetRight()` = `x + width - 1`. -/
def WxRect.GetRight (r : WxRect) : Int := r.x + r.width - 1

/-- `wxRect::GetBottom()` = `y + height - 1`. -/
def WxRect.GetBottom (r : WxRect) : Int := r.y + r.height - 1

/-- `wxRect::Intersect` (wxWidgets `src/common/gdicmn.cpp`): clamp the two
corners to the other rectangle and zero out both extents when the resulting
width or height is not positive. -/
def WxRect.Intersect (r rect : WxRect) : WxRect :=
  let x := if r.x < rect.x then rect.x else r.x
  let y := if r.y < rect.y then rect.y else r.y
  let x2 := if r.GetRight > rect.GetRight then rect.GetRight else r.GetRight
  let y2 := if r.GetBottom > rect.GetBottom then rect.GetBottom else r.GetBottom
  let width := x2 - x + 1
  let height := y2 - y + 1
  if width ≤ 0 ∨ height ≤ 0 then
    { x := x, y := y, width := 0, height := 0 }
  else
    { x := x, y := y, width := width, height := height }

/-- `WindowMetrics`: a window's screen rectangle and maximized flag
(`GUI_Utils.hpp` / `GUI_Utils.cpp`). -/
structure WindowMetrics where
  rect : WxRect
  maximized : Bool
deriving DecidableEq, Repr

/-- `WindowMetrics::serialize` (GUI_Utils.cpp:217-226):
`boost::format("%1%; %2%; %3%; %4%; %5%")` over
`x`, `y`, `width`, `height`, `static_cast<int>(maximized)`, on the character
level. -/
def serializeChars (m : WindowMetrics) : List Char :=
  renderInt m.rect.x ++ ';' :: ' ' ::
  (renderInt m.rect.y ++ ';' :: ' ' ::
   (renderInt m.rect.width ++ ';' :: ' ' ::
    (renderInt m.rect.height ++ ';' :: ' ' ::
     renderInt (if m.maximized then 1 else 0))))

/-- `WindowMetrics::serialize` packaged on `String`. -/
def WindowMetrics.serialize (m : WindowMetrics) : String :=
  String.mk (serializeChars m)

/-- The test `(metrics[4] & ~1) != 0` of GUI_Utils.cpp:196 on the 32-bit
two's-complement representation of the parsed `int`: the word with all bits
but the lowest one. -/
def maskHighBits (v : Int) : Nat :=
  Nat.land (v % (2 ^ 32 : Int)).toNat (2 ^ 32 - 2)

/-- `WindowMetrics::deserialize` (GUI_Utils.cpp:178-205): tokenize, require
five fields, `lexical_cast<int>` each (any failure gives the empty result),
force a fifth value with any bit above the lowest set to `0`, and build the
metrics with `maximized = metrics[4] != 0`. -/
def deserializeChars (s : List Char) : Option WindowMetrics :=
  match split_fields s with
  | [t0, t1, t2, t3, t4] =>
    match lexical_cast_int t0, lexical_cast_int t1, lexical_cast_int t2,
          lexical_cast_int t3, lexical_cast_int t4 with
    | some m0, some m1, some m2, some m3, some m4 =>
      let m4 := if maskHighBits m4 ≠ 0 then 0 else m4
      some { rect := { x := m0, y := m1, width := m2, height := m3 },
             maximized := m4 != 0 }
    | _, _, _, _, _ => none
  | _ => none

/-- `WindowMetrics::deserialize` packaged on `String`. -/
def WindowMetrics.deserialize (s : String) : Option WindowMetrics :=
  deserializeChars s.data

/-- `WindowMetrics::sanitize_for_display` (GUI_Utils.cpp:207-215): intersect
with the screen rectangle, then clamp the top-left to at most 80% of the
screen extent past the screen origin (`4*…/5` in C's truncating division `Int.tdiv`). -/
def WindowMetrics.sanitize_for_display (m : WindowMetrics) (screen_rect : WxRect) :
    WindowMetrics :=
  let rect := m.rect.Intersect screen_rect
  let rect := { rect with x := min rect.x (screen_rect.x + Int.tdiv (4 * screen_rect.width) 5) }
  let rect := { rect with y := min rect.y (screen_rect.y + Int.tdiv (4 * screen_rect.height) 5) }
  { m with rect := rect }

/-! ### DPI resolver (`get_dpi_for_window`, GUI_Utils.cpp:59-114) -/

/-- The three platforms of the `#ifdef` branches. -/
inductive Platform
  | windows
  | linux
  | macos
deriving DecidableEq, Repr

/-- Modelled from the spec: `DPI_DEFAULT`, the process-wide default DPI
constant declared in `GUI_Utils.hpp` (not among the supplied sources); the
spec fixes only that it is a positive integer, 96 is the conventional value. -/
def DPI_DEFAULT : Int := 96

/-- The Windows-API surface `get_dpi_for_window` touches, as an explicit
environment: the two optional capabilities resolved through
`winapi_get_function`, plus the always-available calls. Window, monitor and
device-context handles are opaque numbers; a `GetDpiForMonitor` outcome of
`none` stands for a result other than `S_OK`, a `GetDC` outcome of `none`
for a `NULL` device context. -/
structure WinEnv where
  GetDpiForWindow_fn : Option (Nat → Int)
  GetDpiForMonitor_fn : Option (Nat → Option Int)
  GetDesktopWindow : Nat
  MonitorFromWindow : Nat → Nat
  GetDC : Nat → Option Nat
  GetDeviceCaps : Nat → Int

/-- The `_WIN32` body of `get_dpi_for_window` (GUI_Utils.cpp:86-106), with
the two resolved function pointers passed in: per-window query if available,
else per-monitor query (default on failure), else the device-context query
(default on a `NULL` DC). -/
def windows_dpi_chain (env : WinEnv) (wfn : Option (Nat → Int))
    (mfn : Option (Nat → Option Int)) (window : Option Nat) : Int :=
  let hwnd := match window with
    | none => env.GetDesktopWindow
    | some h => h
  match wfn with
  | some fn => fn hwnd
  | none =>
    match mfn with
    | some fn =>
      let monitor := env.MonitorFromWindow hwnd
      match fn monitor with
      | some dpiX => dpiX
      | none => DPI_DEFAULT
    | none =>
      match env.GetDC hwnd with
      | none => DPI_DEFAULT
      | some hdc => env.GetDeviceCaps hdc

/-- `get_dpi_for_window` (GUI_Utils.cpp:68-114): the Windows fallback chain,
and the stub branches returning `DPI_DEFAULT` on Linux and macOS. -/
def get_dpi_for_window (p : Platform) (env : WinEnv) (window : Option Nat) : Int :=
  match p with
  | .windows => windows_dpi_chain env env.GetDpiForWindow_fn env.GetDpiForMonitor_fn window
  | .linux => DPI_DEFAULT
  | .macos => DPI_DEFAULT

/-- The C++ `static` locals of GUI_Utils.cpp:83-84 made explicit: for each
capability, `none` = not probed yet, `some r` = probed with result `r`
(where `r = none` records "not available"). -/
structure DpiFnCache where
  win_fn : Option (Option (Nat → Int))
  mon_fn : Option (Option (Nat → Option Int))

/-- One `winapi_get_function` call site guarded by its `static` initializer
(GUI_Utils.cpp:59-64, 83-84): return the cached probe result if present,
otherwise perform the dynamic lookup, cache it, and count it. The `Nat`
component counts dynamic lookups performed. -/
def probe_capability {α : Type} (lookup : Option α) (cache : Option (Option α)) :
    Option α × Option (Option α) × Nat :=
  match cache with
  | some r => (r, some r, 0)
  | none => (lookup, some lookup, 1)

/-- `get_dpi_for_window` on the Windows branch with the `static`
function-pointer cache threaded explicitly; returns the DPI, the updated
cache, and the number of dynamic capability lookups this call performed. -/
def get_dpi_for_window_cached (env : WinEnv) (window : Option Nat)
    (st : DpiFnCache) : Int × DpiFnCache × Nat :=
  let pw := probe_capability env.GetDpiForWindow_fn st.win_fn
  let pm := probe_capability env.GetDpiForMonitor_fn st.mon_fn
  (windows_dpi_chain env pw.1 pm.1 window,
   { win_fn := pw.2.1, mon_fn := pm.2.1 },
   pw.2.2 + pm.2.2)

/-! ### Window-ready notifier (`on_window_geometry`, GUI_Utils.cpp:34-54)

The wxWidgets scheduling machinery (`Bind`, `CallAfter`, event
dispatch) is external; the handler bodies are translated as action lists and
a small deterministic simulator replays "register, then the window is shown,
then one more event-loop iteration" as an observable event trace. -/

/-- What a line of a handler (or of the registration body) does. -/
inductive HandlerAction
  | invokeCallback
  | scheduleCallbackAfter
  | skipEvent
deriving DecidableEq, Repr

/-- `on_window_geometry`: per platform, the actions run synchronously at
registration, and the body of the `wxEVT_SHOW` handler bound, if any.
Windows (line 40): call the callback right away, bind nothing.
Linux (lines 42-47): bind a handler that does `CallAfter(callback)` then
`evt.Skip()`. macOS (lines 49-52): bind a handler that calls the callback
then `evt.Skip()`. -/
def on_window_geometry : Platform → List HandlerAction × Option (List HandlerAction)
  | .windows => ([.invokeCallback], none)
  | .linux => ([], some [.scheduleCallbackAfter, .skipEvent])
  | .macos => ([], some [.invokeCallback, .skipEvent])

/-- Observable events of the notifier scenario. -/
inductive GuiEv
  | registrationDone
  | handlerEnter
  | handlerExit
  | callbackRun
  | eventSkipped
deriving DecidableEq, Repr

/-- Replay a list of handler actions: the events emitted synchronously, and
the events enqueued by `CallAfter` for a later event-loop iteration. -/
def runActions : List HandlerAction → List GuiEv × List GuiEv
  | [] => ([], [])
  | a :: rest =>
    let r := runActions rest
    match a with
    | .invokeCallback => (GuiEv.callbackRun :: r.1, r.2)
    | .scheduleCallbackAfter => (r.1, GuiEv.callbackRun :: r.2)
    | .skipEvent => (GuiEv.eventSkipped :: r.1, r.2)

/-- The full observable trace of: register via `on_window_geometry`, then
the window's "shown" notification fires, then the event loop runs one more
iteration (delivering the `CallAfter` queue). -/
def scenarioTrace (p : Platform) : List GuiEv :=
  let reg := on_window_geometry p
  let regEvents := (runActions reg.1).1 ++ [GuiEv.registrationDone]
  match reg.2 with
  | none => regEvents
  | some handler =>
    let r := runActions handler
    regEvents ++ GuiEv.handlerEnter :: (r.1 ++ GuiEv.handlerExit :: r.2)

/-! ### CheckboxFileDialog (GUI_Utils.cpp:117-167) -/

/-- The parent passed to the extra-control factory: either a real
`CheckboxFileDialog` (the `dynamic_cast` of GUI_Utils.cpp:125 succeeds and
yields its `checkbox_label`) or the toolkit's throwaway measurement parent
(the cast yields `nullptr`). -/
inductive PanelParent
  | dialog (checkbox_label : String)
  | throwaway
deriving DecidableEq, Repr

/-- `CheckboxFileDialog::ExtraPanel`: the auxiliary panel's checkbox state
and label. -/
structure ExtraPanel where
  cbox_checked : Bool
  cbox_label : String
deriving DecidableEq, Repr

/-- `ExtraPanel::ExtraPanel` (GUI_Utils.cpp:117-135): label from the real
dialog when the parent is one, else the sizing placeholder; the checkbox is
set to `true` (`cbox->SetValue(true)`). -/
def ExtraPanel.construct : PanelParent → ExtraPanel
  | .dialog lbl => { cbox_checked := true, cbox_label := lbl }
  | .throwaway =>
    { cbox_checked := true,
      cbox_label := "String long enough to contain dlg->checkbox_label" }

/-- `CheckboxFileDialog`: the stored label, whether
`SetExtraControlCreator(ExtraPanel::ctor)` was called, and the extra control
the toolkit has installed (if any). -/
structure CheckboxFileDialog where
  checkbox_label : String
  creator_installed : Bool
  extra_control : Option ExtraPanel
deriving DecidableEq, Repr

/-- `CheckboxFileDialog::CheckboxFileDialog` (GUI_Utils.cpp:141-161): store
the label; if it is empty, return without installing the extra-control
factory, else install it. The `checkbox_value` argument is accepted and the
body never reads it. -/
def CheckboxFileDialog.construct (checkbox_label : String) (checkbox_value : Bool) :
    CheckboxFileDialog :=
  if checkbox_label.isEmpty then
    { checkbox_label := checkbox_label, creator_installed := false, extra_control := none }
  else
    { checkbox_label := checkbox_label, creator_installed := true, extra_control := none }

/-- The toolkit's display step: when a creator is installed, invoke the
factory with the real dialog as parent and put the panel into the
extra-control slot; returns the dialog and how often the factory ran. -/
def CheckboxFileDialog.show (d : CheckboxFileDialog) : CheckboxFileDialog × Nat :=
  if d.creator_installed then
    ({ d with extra_control := some (ExtraPanel.construct (.dialog d.checkbox_label)) }, 1)
  else
    (d, 0)

/-- `CheckboxFileDialog::get_checkbox_value` (GUI_Utils.cpp:163-167): the
checkbox state of the extra panel when present, else `false`. -/
def CheckboxFileDialog.get_checkbox_value (d : CheckboxFileDialog) : Bool :=
  match d.extra_control with
  | some extra_panel => extra_panel.cbox_checked
  | none => false

/-! ## Theorems -/

/-- Positivity of the Windows fallback chain, given that each capability the
environment does supply answers with a positive value. -/
theorem windows_dpi_chain_pos (env : WinEnv) (wfn : Option (Nat → Int))
    (mfn : Option (Nat → Option Int)) (w : Option Nat)
    (hW : ∀ f, wfn = some f → ∀ h, 0 < f h)
    (hM : ∀ f, mfn = some f → ∀ mon d, f mon = some d → 0 < d)
    (hDC : ∀ h, 0 < env.GetDeviceCaps h) :
    0 < windows_dpi_chain env wfn mfn w := by
  unfold windows_dpi_chain
  cases wfn with
  | some f => exact hW f rfl _
  | none =>
    cases mfn with
    | some f =>
      cases hc : f (env.MonitorFromWindow (match w with | none => env.GetDesktopWindow | some h => h)) with
      | some d => simpa [hc] using hM f rfl _ d hc
      | none => simp [hc, DPI_DEFAULT]
    | none =>
      cases hdc : env.GetDC (match w with | none => env.GetDesktopWindow | some h => h) with
      | some hdcv => simpa [hdc] using hDC hdcv
      | none => simp [hdc, DPI_DEFAULT]

/-- Claim C4: `sanitize_for_display` never leaves the rectangle's top-left
beyond 80% of the screen's extent past the screen's own origin, in either
axis, for any stored rectangle. -/
theorem sanitize_for_display_clamps_topleft (m : WindowMetrics) (s : WxRect)
    (hw : 0 ≤ s.width) (hh : 0 ≤ s.height) :
    (m.sanitize_for_display s).rect.x ≤ s.x + Int.tdiv (4 * s.width) 5 ∧
    (m.sanitize_for_display s).rect.y ≤ s.y + Int.tdiv (4 * s.height) 5 := by
  refine ⟨?_, ?_⟩ <;> simp [WindowMetrics.sanitize_for_display]

/-- Claim C4 witness at a rectangle far outside a concrete screen. -/
theorem sanitize_for_display_clamps_topleft_witness :
    (0 : Int) ≤ 1920 ∧ (0 : Int) ≤ 1080 ∧
    (WindowMetrics.sanitize_for_display
        { rect := { x := 5000, y := 6000, width := 300, height := 200 }, maximized := false }
        { x := 0, y := 0, width := 1920, height := 1080 }).rect.x ≤
      0 + Int.tdiv (4 * 1920) 5 ∧
    (WindowMetrics.sanitize_for_display
        { rect := { x := 5000, y := 6000, width := 300, height := 200 }, maximized := false }
        { x := 0, y := 0, width := 1920, height := 1080 }).rect.y ≤
      0 + Int.tdiv (4 * 1080) 5 := by
  refine ⟨by decide, by decide, ?_⟩
  have h := sanitize_for_display_clamps_topleft
    { rect := { x := 5000, y := 6000, width := 300, height := 200 }, maximized := false }
    { x := 0, y := 0, width := 1920, height := 1080 } (by decide) (by decide)
  exact h

/-- The corner clamp `if a < b then b else a` of `wxRect::Intersect` is a
maximum. -/
theorem ite_lt_eq_max (a b : Int) : (if a < b then b else a) = max a b := by
  rcases le_or_lt b a with h | h
  · rw [if_neg (not_lt.mpr h), max_eq_left h]
  · rw [if_pos h, max_eq_right h.le]

/-- The corner clamp `if a > b then b else a` of `wxRect::Intersect` is a
minimum. -/
theorem ite_gt_eq_min (a b : Int) : (if a > b then b else a) = min a b := by
  rcases le_or_lt a b with h | h
  · rw [if_neg (not_lt.mpr h), min_eq_left h]
  · rw [if_pos h, min_eq_right h.le]

/-- `wxRect::Intersect` yields non-negative extents, and exactly-zero
extents when the two rectangles are disjoint. -/
theorem intersect_extents (r s : WxRect) :
    (0 ≤ (r.Intersect s).width ∧ 0 ≤ (r.Intersect s).height) ∧
    ((r.x + r.width ≤ s.x ∨ s.x + s.width ≤ r.x ∨
        r.y + r.height ≤ s.y ∨ s.y + s.height ≤ r.y) →
      (r.Intersect s).width = 0 ∧ (r.Intersect s).height = 0) := by
  simp only [WxRect.Intersect, WxRect.GetRight, WxRect.GetBottom,
    ite_lt_eq_max, ite_gt_eq_min]
  split
  · dsimp only
    exact ⟨⟨le_refl 0, le_refl 0⟩, fun _ => ⟨rfl, rfl⟩⟩
  · dsimp only
    rename_i hcond
    refine ⟨⟨by omega, by omega⟩, fun hd => absurd hcond (by omega)⟩

/-- Claim C5: after `sanitize_for_display` the width and height are never
negative, and a stored rectangle entirely disjoint from the screen rectangle
comes out with width and height exactly `0`. -/
theorem sanitize_for_display_nonneg_extents (m : WindowMetrics) (s : WxRect) :
    (0 ≤ (m.sanitize_for_display s).rect.width ∧
      0 ≤ (m.sanitize_for_display s).rect.height) ∧
    ((m.rect.x + m.rect.width ≤ s.x ∨ s.x + s.width ≤ m.rect.x ∨
        m.rect.y + m.rect.height ≤ s.y ∨ s.y + s.height ≤ m.rect.y) →
      (m.sanitize_for_display s).rect.width = 0 ∧
        (m.sanitize_for_display s).rect.height = 0) := by
  have hwidth : (m.sanitize_for_display s).rect.width = (m.rect.Intersect s).width := rfl
  have hheight : (m.sanitize_for_display s).rect.height = (m.rect.Intersect s).height := rfl
  rw [hwidth, hheight]
  exact intersect_extents m.rect s

/-- Claim C5 witness: a rectangle entirely to the left of the screen. -/
theorem sanitize_for_display_nonneg_extents_witness :
    ((-500 : Int) + 100 ≤ 0 ∨ (0 : Int) + 1920 ≤ -500 ∨
      (10 : Int) + 100 ≤ 0 ∨ (0 : Int) + 1080 ≤ 10) ∧
    (WindowMetrics.sanitize_for_display
        { rect := { x := -500, y := 10, width := 100, height := 100 }, maximized := true }
        { x := 0, y := 0, width := 1920, height := 1080 }).rect.width = 0 ∧
    (WindowMetrics.sanitize_for_display
        { rect := { x := -500, y := 10, width := 100, height := 100 }, maximized := true }
        { x := 0, y := 0, width := 1920, height := 1080 }).rect.height = 0 := by
  refine ⟨by decide, ?_⟩
  exact (sanitize_for_display_nonneg_extents
    { rect := { x := -500, y := 10, width := 100, height := 100 }, maximized := true }
    { x := 0, y := 0, width := 1920, height := 1080 }).2 (by decide)

/-- Claim C6: `get_dpi_for_window` is total and positive whenever the
platform capabilities it consults answer positively, and on the stub
platforms (Linux, macOS) it always returns the process-wide default. -/
theorem get_dpi_for_window_total_positive (p : Platform) (env : WinEnv) (w : Option Nat)
    (hW : ∀ f, env.GetDpiForWindow_fn = some f → ∀ h, 0 < f h)
    (hM : ∀ f, env.GetDpiForMonitor_fn = some f → ∀ mon d, f mon = some d → 0 < d)
    (hDC : ∀ h, 0 < env.GetDeviceCaps h) :
    0 < get_dpi_for_window p env w ∧
    ((p = .linux ∨ p = .macos) → get_dpi_for_window p env w = DPI_DEFAULT) := by
  cases p with
  | windows =>
    refine ⟨windows_dpi_chain_pos env _ _ w hW hM hDC, ?_⟩
    rintro (h | h) <;> cases h
  | linux => exact ⟨by show (0 : Int) < DPI_DEFAULT; decide, fun _ => rfl⟩
  | macos => exact ⟨by show (0 : Int) < DPI_DEFAULT; decide, fun _ => rfl⟩

/-- Claim C6 witness: an environment with no capabilities at all (every
query stubbed out), on each platform. -/
theorem get_dpi_for_window_total_positive_witness :
    0 < get_dpi_for_window .windows
        { GetDpiForWindow_fn := none, GetDpiForMonitor_fn := none,
          GetDesktopWindow := 0, MonitorFromWindow := id,
          GetDC := fun _ => none, GetDeviceCaps := fun _ => 1 } none ∧
    get_dpi_for_window .linux
        { GetDpiForWindow_fn := none, GetDpiForMonitor_fn := none,
          GetDesktopWindow := 0, MonitorFromWindow := id,
          GetDC := fun _ => none, GetDeviceCaps := fun _ => 1 } none = DPI_DEFAULT := by
  constructor
  · exact (get_dpi_for_window_total_positive .windows
      { GetDpiForWindow_fn := none, GetDpiForMonitor_fn := none,
        GetDesktopWindow := 0, MonitorFromWindow := id,
        GetDC := fun _ => none, GetDeviceCaps := fun _ => 1 } none
      (fun f hf => by cases hf) (fun f hf => by cases hf) (fun _ => Int.one_pos)).1
  · exact (get_dpi_for_window_total_positive .linux
      { GetDpiForWindow_fn := none, GetDpiForMonitor_fn := none,
        GetDesktopWindow := 0, MonitorFromWindow := id,
        GetDC := fun _ => none, GetDeviceCaps := fun _ => 1 } none
      (fun f hf => by cases hf) (fun f hf => by cases hf) (fun _ => Int.one_pos)).2
      (Or.inl rfl)

/-- Claim C7: in the notifier's observable trace, on Linux the callback runs
only after the "shown" handler has exited (never inside it), on macOS it
runs inside the handler (after entry, before exit), and on Windows it runs
synchronously before registration even completes. -/
theorem on_window_geometry_ordering :
    ((scenarioTrace .linux).indexOf .handlerExit <
        (scenarioTrace .linux).indexOf .callbackRun ∧
      GuiEv.callbackRun ∈ scenarioTrace .linux)
    ∧ ((scenarioTrace .macos).indexOf .handlerEnter <
        (scenarioTrace .macos).indexOf .callbackRun ∧
      (scenarioTrace .macos).indexOf .callbackRun <
        (scenarioTrace .macos).indexOf .handlerExit)
    ∧ ((scenarioTrace .windows).indexOf .callbackRun <
        (scenarioTrace .windows).indexOf .registrationDone ∧
      GuiEv.callbackRun ∈ scenarioTrace .windows) := by decide

/-- Claim C8: across two consecutive resolver calls with the same window the
dynamic capability lookups happen exactly once per capability (both in the
first call), the second call performs none, and both calls return the same
positive DPI. -/
theorem get_dpi_for_window_cached_once (env : WinEnv) (w : Option Nat)
    (hW : ∀ f, env.GetDpiForWindow_fn = some f → ∀ h, 0 < f h)
    (hM : ∀ f, env.GetDpiForMonitor_fn = some f → ∀ mon d, f mon = some d → 0 < d)
    (hDC : ∀ h, 0 < env.GetDeviceCaps h) :
    (get_dpi_for_window_cached env w { win_fn := none, mon_fn := none }).2.2 = 2 ∧
    (get_dpi_for_window_cached env w
        (get_dpi_for_window_cached env w { win_fn := none, mon_fn := none }).2.1).2.2 = 0 ∧
    (get_dpi_for_window_cached env w
        (get_dpi_for_window_cached env w { win_fn := none, mon_fn := none }).2.1).1 =
      (get_dpi_for_window_cached env w { win_fn := none, mon_fn := none }).1 ∧
    0 < (get_dpi_for_window_cached env w { win_fn := none, mon_fn := none }).1 := by
  refine ⟨rfl, rfl, rfl, ?_⟩
  exact windows_dpi_chain_pos env _ _ w hW hM hDC

/-- Claim C8 witness: concrete environment with a per-window capability. -/
theorem get_dpi_for_window_cached_once_witness :
    (get_dpi_for_window_cached
        { GetDpiForWindow_fn := some (fun _ => 144), GetDpiForMonitor_fn := none,
          GetDesktopWindow := 0, MonitorFromWindow := id,
          GetDC := fun _ => none, GetDeviceCaps := fun _ => 1 } (some 7)
        { win_fn := none, mon_fn := none }).2.2 = 2 ∧
    0 < (get_dpi_for_window_cached
        { GetDpiForWindow_fn := some (fun _ => 144), GetDpiForMonitor_fn := none,
          GetDesktopWindow := 0, MonitorFromWindow := id,
          GetDC := fun _ => none, GetDeviceCaps := fun _ => 1 } (some 7)
        { win_fn := none, mon_fn := none }).1 := by
  have h := get_dpi_for_window_cached_once
    { GetDpiForWindow_fn := some (fun _ => 144), GetDpiForMonitor_fn := none,
      GetDesktopWindow := 0, MonitorFromWindow := id,
      GetDC := fun _ => none, GetDeviceCaps := fun _ => 1 } (some 7)
    (fun f hf => by
      injection hf with hf
      subst hf
      exact fun _ => by show (0 : Int) < 144; decide)
    (fun f hf => by cases hf) (fun _ => Int.one_pos)
  exact ⟨h.1, h.2.2.2⟩

/-- Claim C9: `get_checkbox_value` reads the toggle when the extra panel is
installed and is `false` without error when it is not; a dialog constructed
with an empty label never installs the factory, so after display the value
is `false` and the factory ran zero times. -/
theorem get_checkbox_value_spec :
    (∀ (d : CheckboxFileDialog) (p : ExtraPanel), d.extra_control = some p →
        d.get_checkbox_value = p.cbox_checked)
    ∧ (∀ d : CheckboxFileDialog, d.extra_control = none → d.get_checkbox_value = false)
    ∧ (∀ v : Bool,
        (CheckboxFileDialog.construct "" v).show.1.get_checkbox_value = false ∧
        (CheckboxFileDialog.construct "" v).show.2 = 0) := by
  refine ⟨?_, ?_, ?_⟩
  · intro d p h
    simp [CheckboxFileDialog.get_checkbox_value, h]
  · intro d h
    simp [CheckboxFileDialog.get_checkbox_value, h]
  · intro v
    exact ⟨rfl, rfl⟩

/-- Claim C9 witness: a dialog with an installed panel reads the toggle, an
empty-label dialog reads `false` with the factory never invoked. -/
theorem get_checkbox_value_spec_witness :
    ({ checkbox_label := "Export", creator_installed := true,
        extra_control := some { cbox_checked := true, cbox_label := "Export" } } :
        CheckboxFileDialog).get_checkbox_value = true ∧
    (CheckboxFileDialog.construct "" true).show.1.get_checkbox_value = false ∧
    (CheckboxFileDialog.construct "" true).show.2 = 0 := by
  refine ⟨?_, (get_checkbox_value_spec.2.2 true).1, (get_checkbox_value_spec.2.2 true).2⟩
  exact get_checkbox_value_spec.1 _ { cbox_checked := true, cbox_label := "Export" } rfl

/-- Claim C10: every factory invocation, with either kind of parent, yields
a panel whose checkbox starts `true`; the constructor's `checkbox_value`
argument has no effect on the dialog it builds. -/
theorem extra_panel_checkbox_starts_true :
    (∀ parent : PanelParent, (ExtraPanel.construct parent).cbox_checked = true)
    ∧ (∀ (lbl : String) (v₁ v₂ : Bool),
        CheckboxFileDialog.construct lbl v₁ = CheckboxFileDialog.construct lbl v₂) := by
  constructor
  · intro parent
    cases parent <;> rfl
  · intro lbl v₁ v₂
    rfl

/-! ### Decimal round-trip lemmas -/

/-- Digit characters of values below ten are digits. -/
theorem digitCh_isDigit (d : Nat) (h : d < 10) : (digitCh d).isDigit = true := by
  interval_cases d <;> decide

/-- `digitVal` inverts `digitCh` below ten. -/
theorem digitVal_digitCh (d : Nat) (h : d < 10) : digitVal (digitCh d) = d := by
  interval_cases d <;> decide

/-- Rendering with enough fuel never yields the empty token. -/
theorem renderNatAux_ne_nil (fuel n : Nat) (h : n < fuel) : renderNatAux fuel n ≠ [] := by
  cases fuel with
  | zero => omega
  | succ f =>
    simp only [renderNatAux]
    split
    · simp
    · simp

/-- Every character rendered with enough fuel is a digit. -/
theorem renderNatAux_digits (fuel : Nat) : ∀ n, n < fuel →
    ∀ c ∈ renderNatAux fuel n, c.isDigit = true := by
  induction fuel with
  | zero => omega
  | succ f ih =>
    intro n hn c hc
    simp only [renderNatAux] at hc
    split at hc
    · rename_i h10
      rw [List.mem_singleton] at hc
      subst hc
      exact digitCh_isDigit n h10
    · rename_i h10
      rcases List.mem_append.mp hc with hmem | hmem
      · have hdiv : n / 10 < n := Nat.div_lt_self (by omega) (by omega)
        exact ih (n / 10) (by omega) c hmem
      · rw [List.mem_singleton] at hmem
        subst hmem
        exact digitCh_isDigit (n % 10) (Nat.mod_lt n (by omega))

/-- `digitsVal` distributes over appending one digit. -/
theorem digitsVal_append (l : List Char) (c : Char) :
    digitsVal (l ++ [c]) = 10 * digitsVal l + digitVal c := by
  simp [digitsVal, List.foldl_append]

/-- Rendering with enough fuel is inverted by `digitsVal`. -/
theorem digitsVal_renderNatAux (fuel : Nat) : ∀ n, n < fuel →
    digitsVal (renderNatAux fuel n) = n := by
  induction fuel with
  | zero => omega
  | succ f ih =>
    intro n hn
    simp only [renderNatAux]
    split
    · rename_i h10
      simp [digitsVal, digitVal_digitCh n h10]
    · rename_i h10
      have hdiv : n / 10 < n := Nat.div_lt_self (by omega) (by omega)
      rw [digitsVal_append, ih (n / 10) (by omega),
        digitVal_digitCh (n % 10) (Nat.mod_lt n (by omega))]
      omega

/-- `renderNat` produces only digits. -/
theorem renderNat_digits (n : Nat) : ∀ c ∈ renderNat n, c.isDigit = true :=
  renderNatAux_digits (n + 1) n (Nat.lt_succ_self n)

/-- `renderNat` is never empty. -/
theorem renderNat_ne_nil (n : Nat) : renderNat n ≠ [] :=
  renderNatAux_ne_nil (n + 1) n (Nat.lt_succ_self n)

/-- `digitsVal` inverts `renderNat`. -/
theorem digitsVal_renderNat (n : Nat) : digitsVal (renderNat n) = n :=
  digitsVal_renderNatAux (n + 1) n (Nat.lt_succ_self n)

/-- `parseNatTok` inverts `renderNat`. -/
theorem parseNatTok_renderNat (n : Nat) : parseNatTok (renderNat n) = some n := by
  have h1 : (renderNat n).isEmpty = false := by
    cases hrn : renderNat n with
    | nil => exact absurd hrn (renderNat_ne_nil n)
    | cons a l => rfl
  have h2 : (renderNat n).all Char.isDigit = true :=
    List.all_eq_true.mpr (renderNat_digits n)
  simp [parseNatTok, h1, h2, digitsVal_renderNat]

/-- A digit is not a sign character. -/
theorem digit_not_sign (c : Char) (h : c.isDigit = true) : c ≠ '-' ∧ c ≠ '+' := by
  constructor <;> rintro rfl <;> exact absurd h (by decide)

/-- `parseIntTok` inverts `renderInt`. -/
theorem parseIntTok_renderInt (i : Int) : parseIntTok (renderInt i) = some i := by
  by_cases hneg : i < 0
  · rw [renderInt, if_pos hneg]
    simp only [parseIntTok, if_pos rfl, parseNatTok_renderNat]
    have : ((-i).toNat : Int) = -i := Int.toNat_of_nonneg (by omega)
    simp [this]
  · rw [renderInt, if_neg hneg]
    cases hrn : renderNat i.toNat with
    | nil => exact absurd hrn (renderNat_ne_nil _)
    | cons c cs =>
      have hcdig : c.isDigit = true :=
        renderNat_digits i.toNat c (hrn ▸ List.mem_cons_self c cs)
      obtain ⟨hm, hp⟩ := digit_not_sign c hcdig
      simp only [parseIntTok, if_neg hm, if_neg hp]
      rw [← hrn, parseNatTok_renderNat]
      simp [Int.toNat_of_nonneg (by omega : (0 : Int) ≤ i)]

/-- `lexical_cast_int` inverts `renderInt` on the `int` range. -/
theorem lexical_cast_int_renderInt (i : Int) (hlo : INT_MIN ≤ i) (hhi : i ≤ INT_MAX) :
    lexical_cast_int (renderInt i) = some i := by
  simp only [lexical_cast_int, parseIntTok_renderInt]
  rw [if_neg]
  simp only [Bool.or_eq_true, decide_eq_true_eq, not_or, not_lt]
  exact ⟨hlo, hhi⟩

/-- Anything `lexical_cast_int` accepts lies in the `int` range. -/
theorem lexical_cast_int_bounds (l : List Char) (v : Int)
    (h : lexical_cast_int l = some v) : INT_MIN ≤ v ∧ v ≤ INT_MAX := by
  unfold lexical_cast_int at h
  cases hp : parseIntTok l with
  | none => rw [hp] at h; cases h
  | some w =>
    rw [hp] at h
    dsimp only at h
    by_cases hb : (decide (w < INT_MIN) || decide (INT_MAX < w)) = true
    · rw [if_pos hb] at h
      cases h
    · rw [if_neg hb] at h
      cases h
      simp only [Bool.or_eq_true, decide_eq_true_eq, not_or, not_lt] at hb
      exact hb

/-! ### Splitting lemmas -/

/-- `splitSemi` always yields at least one field. -/
theorem splitSemi_ne_nil (l : List Char) : splitSemi l ≠ [] := by
  induction l with
  | nil => simp [splitSemi]
  | cons c cs ih =>
    simp only [splitSemi]
    split
    · simp
    · cases h : splitSemi cs with
      | nil => simp
      | cons t ts => simp

/-- Splitting a semicolon-free chunk followed by `';'` peels off that chunk
as the first field. -/
theorem splitSemi_append (a b : List Char) (ha : ∀ c ∈ a, c ≠ ';') :
    splitSemi (a ++ ';' :: b) = a :: splitSemi b := by
  induction a with
  | nil => simp [splitSemi]
  | cons c a' ih =>
    have hc : ¬(c = ';') := ha c (List.mem_cons_self c a')
    have ha' : ∀ x ∈ a', x ≠ ';' := fun x hx => ha x (List.mem_cons_of_mem c hx)
    simp only [List.cons_append, splitSemi, if_neg hc, List.append_eq]
    rw [ih ha']

/-- Splitting a semicolon-free list yields a single field. -/
theorem splitSemi_no_semi (a : List Char) (ha : ∀ c ∈ a, c ≠ ';') :
    splitSemi a = [a] := by
  induction a with
  | nil => rfl
  | cons c a' ih =>
    have hc : ¬(c = ';') := ha c (List.mem_cons_self c a')
    have ha' : ∀ x ∈ a', x ≠ ';' := fun x hx => ha x (List.mem_cons_of_mem c hx)
    simp only [splitSemi, if_neg hc]
    rw [ih ha']

/-- No character of a rendered integer is a semicolon or a blank. -/
theorem renderInt_no_semi_ws (i : Int) :
    ∀ c ∈ renderInt i, ¬(c = ';') ∧ (c == ' ' || c == '\t') = false := by
  intro c hc
  have hdig : c.isDigit = true ∨ c = '-' := by
    unfold renderInt at hc
    split at hc
    · rcases List.mem_cons.mp hc with h | h
      · exact Or.inr h
      · exact Or.inl (renderNat_digits _ c h)
    · exact Or.inl (renderNat_digits _ c hc)
  rcases hdig with h | h
  · refine ⟨fun he => absurd h (by subst he; decide), ?_⟩
    by_cases h1 : c = ' '
    · exact absurd h (by subst h1; decide)
    · by_cases h2 : c = '\t'
      · exact absurd h (by subst h2; decide)
      · simp [h1, h2]
  · subst h
    exact ⟨by decide, by decide⟩

/-- `dropLeadingWs` leaves a rendered integer unchanged. -/
theorem dropLeadingWs_renderInt (i : Int) :
    dropLeadingWs (renderInt i) = renderInt i := by
  unfold dropLeadingWs
  cases hrn : renderInt i with
  | nil => rfl
  | cons c cs =>
    have := (renderInt_no_semi_ws i c (hrn ▸ List.mem_cons_self c cs)).2
    simp [List.dropWhile_cons, this]

/-- `dropLeadingWs` removes exactly the separator blank in front of a
rendered integer. -/
theorem dropLeadingWs_space_renderInt (i : Int) :
    dropLeadingWs (' ' :: renderInt i) = renderInt i := by
  unfold dropLeadingWs
  rw [List.dropWhile_cons]
  simp only [show ((' ' : Char) == ' ' || (' ' : Char) == '\t') = true from rfl, if_pos]
  exact dropLeadingWs_renderInt i

/-- Splitting a separator blank, a semicolon-free chunk and a `';'` peels
off the blank-prefixed chunk as the first field. -/
theorem splitSemi_sep (a b : List Char) (ha : ∀ c ∈ a, ¬(c = ';')) :
    splitSemi (' ' :: (a ++ ';' :: b)) = (' ' :: a) :: splitSemi b := by
  have h : ∀ c ∈ (' ' :: a), ¬(c = ';') := by
    intro c hc
    rcases List.mem_cons.mp hc with h | h
    · subst h; decide
    · exact ha c h
  rw [← List.cons_append]
  exact splitSemi_append (' ' :: a) b h

/-- Splitting the final blank-prefixed semicolon-free field. -/
theorem splitSemi_sep_last (a : List Char) (ha : ∀ c ∈ a, ¬(c = ';')) :
    splitSemi (' ' :: a) = [' ' :: a] := by
  apply splitSemi_no_semi
  intro c hc
  rcases List.mem_cons.mp hc with h | h
  · subst h; decide
  · exact ha c h

/-- The five fields of a serialized `WindowMetrics`. -/
theorem split_fields_serialize (m : WindowMetrics) :
    split_fields (serializeChars m) =
      [renderInt m.rect.x, renderInt m.rect.y, renderInt m.rect.width,
        renderInt m.rect.height, renderInt (if m.maximized then 1 else 0)] := by
  have hns : ∀ j : Int, ∀ c ∈ renderInt j, ¬(c = ';') :=
    fun j c hc => (renderInt_no_semi_ws j c hc).1
  unfold split_fields serializeChars
  rw [splitSemi_append _ _ (hns m.rect.x),
    splitSemi_sep _ _ (hns m.rect.y),
    splitSemi_sep _ _ (hns m.rect.width),
    splitSemi_sep _ _ (hns m.rect.height),
    splitSemi_sep_last _ (hns (if m.maximized then 1 else 0))]
  simp [dropLeadingWs_renderInt, dropLeadingWs_space_renderInt]

/-! ### The maximized-flag mask -/

/-- A 32-bit word survives masking with all-bits-but-the-lowest as zero
exactly when it is `0` or `1`. -/
theorem land_mask_eq_zero_iff (n : Nat) (h : n < 2 ^ 32) :
    Nat.land n (2 ^ 32 - 2) = 0 ↔ n < 2 := by
  constructor
  · intro hl
    by_contra hge
    push_neg at hge
    have ha : n / 2 ≠ 0 := by omega
    obtain ⟨i, hi⟩ := Nat.ne_zero_implies_bit_true ha
    have hia : i < 31 := by
      by_contra hge31
      push_neg at hge31
      have hlt : n / 2 < 2 ^ i := by
        calc n / 2 < 2 ^ 31 := by omega
        _ ≤ 2 ^ i := Nat.pow_le_pow_right (by omega) hge31
      rw [Nat.testBit_lt_two_pow hlt] at hi
      exact Bool.noConfusion hi
    have hbn : n.testBit (i + 1) = true := by
      rw [Nat.testBit_add_one]
      exact hi
    have hbm : (2 ^ 32 - 2 : Nat).testBit (i + 1) = true := by
      rw [Nat.testBit_add_one]
      have h2 : (2 ^ 32 - 2 : Nat) / 2 = 2 ^ 31 - 1 := by norm_num
      rw [h2, Nat.testBit_two_pow_sub_one]
      simpa using hia
    have h0 : (Nat.land n (2 ^ 32 - 2)).testBit (i + 1) = false := by
      rw [hl]
      exact Nat.zero_testBit _
    rw [show Nat.land n (2 ^ 32 - 2) = n &&& (2 ^ 32 - 2) from rfl,
      Nat.testBit_and, hbn, hbm] at h0
    exact Bool.noConfusion h0
  · intro h2
    interval_cases n <;> decide

/-- The normalization of GUI_Utils.cpp:196-202: the stored flag is `true`
exactly when the parsed fifth integer is `1`. -/
theorem maximized_norm (v : Int) (hlo : INT_MIN ≤ v) (hhi : v ≤ INT_MAX) :
    ((if maskHighBits v ≠ 0 then 0 else v) != 0) = decide (v = 1) := by
  by_cases h1 : v = 1
  · subst h1
    decide
  · by_cases h0 : v = 0
    · subst h0
      decide
    · have hlo' : -(2147483648 : Int) ≤ v := by
        have : INT_MIN = -(2147483648 : Int) := by norm_num [INT_MIN]
        omega
      have hhi' : v ≤ (2147483647 : Int) := by
        have : INT_MAX = (2147483647 : Int) := by norm_num [INT_MAX]
        omega
      have hmask : maskHighBits v ≠ 0 := by
        unfold maskHighBits
        have he : (2 ^ 32 : Int) = 4294967296 := by norm_num
        rw [he]
        have hn2 : 2 ≤ (v % (4294967296 : Int)).toNat ∧
            (v % (4294967296 : Int)).toNat < 2 ^ 32 := by
          constructor
          · omega
          · have : (2 ^ 32 : Nat) = 4294967296 := by norm_num
            omega
        intro hz
        have := (land_mask_eq_zero_iff _ hn2.2).mp hz
        omega
      rw [if_pos hmask]
      simp [h1]

/-! ### Main serialization claims -/

/-- Deserialization of a string whose five fields all parse: the metrics are
the four parsed coordinates and the maximized flag is set exactly when the
fifth parsed integer is `1`. -/
theorem deserializeChars_fields (s t0 t1 t2 t3 t4 : List Char)
    (hs : split_fields s = [t0, t1, t2, t3, t4])
    (v0 v1 v2 v3 v4 : Int)
    (h0 : lexical_cast_int t0 = some v0) (h1 : lexical_cast_int t1 = some v1)
    (h2 : lexical_cast_int t2 = some v2) (h3 : lexical_cast_int t3 = some v3)
    (h4 : lexical_cast_int t4 = some v4) :
    deserializeChars s =
      some { rect := { x := v0, y := v1, width := v2, height := v3 },
             maximized := decide (v4 = 1) } := by
  have hb := lexical_cast_int_bounds t4 v4 h4
  unfold deserializeChars
  rw [hs]
  simp only [h0, h1, h2, h3, h4]
  rw [maximized_norm v4 hb.1 hb.2]

/-- Claim C2: whenever all five fields parse as integers, `deserialize`
succeeds, and the maximized flag is `true` exactly when the fifth parsed
integer equals `1`; any other value (e.g. `3`, `2`, negatives) silently
normalizes to `false` instead of failing the parse. -/
theorem deserialize_maximized_iff_one (s : String) (t0 t1 t2 t3 t4 : List Char)
    (hs : split_fields s.data = [t0, t1, t2, t3, t4])
    (v0 v1 v2 v3 v4 : Int)
    (h0 : lexical_cast_int t0 = some v0) (h1 : lexical_cast_int t1 = some v1)
    (h2 : lexical_cast_int t2 = some v2) (h3 : lexical_cast_int t3 = some v3)
    (h4 : lexical_cast_int t4 = some v4) :
    WindowMetrics.deserialize s =
      some { rect := { x := v0, y := v1, width := v2, height := v3 },
             maximized := decide (v4 = 1) } :=
  deserializeChars_fields s.data t0 t1 t2 t3 t4 hs v0 v1 v2 v3 v4 h0 h1 h2 h3 h4

/-- Claim C2 witness: the spec's two example strings, applied to the
theorem; `decide ((3 : Int) = 1)` is `false` and `decide ((1 : Int) = 1)` is
`true`. -/
theorem deserialize_maximized_iff_one_witness :
    WindowMetrics.deserialize "10; 20; 300; 400; 3" =
      some { rect := { x := 10, y := 20, width := 300, height := 400 },
             maximized := decide ((3 : Int) = 1) } ∧
    WindowMetrics.deserialize "10; 20; 300; 400; 1" =
      some { rect := { x := 10, y := 20, width := 300, height := 400 },
             maximized := decide ((1 : Int) = 1) } := by
  constructor
  · exact deserialize_maximized_iff_one "10; 20; 300; 400; 3"
      ['1', '0'] ['2', '0'] ['3', '0', '0'] ['4', '0', '0'] ['3'] (by decide)
      10 20 300 400 3 (by decide) (by decide) (by decide) (by decide) (by decide)
  · exact deserialize_maximized_iff_one "10; 20; 300; 400; 1"
      ['1', '0'] ['2', '0'] ['3', '0', '0'] ['4', '0', '0'] ['1'] (by decide)
      10 20 300 400 1 (by decide) (by decide) (by decide) (by decide) (by decide)

/-- Claim C1: `deserialize` inverts `serialize` for every `WindowMetrics`
whose rectangle fields are `int` values. -/
theorem serialize_deserialize_roundtrip (m : WindowMetrics)
    (hx : INT_MIN ≤ m.rect.x ∧ m.rect.x ≤ INT_MAX)
    (hy : INT_MIN ≤ m.rect.y ∧ m.rect.y ≤ INT_MAX)
    (hw : INT_MIN ≤ m.rect.width ∧ m.rect.width ≤ INT_MAX)
    (hh : INT_MIN ≤ m.rect.height ∧ m.rect.height ≤ INT_MAX) :
    WindowMetrics.deserialize (WindowMetrics.serialize m) = some m := by
  have h5 : lexical_cast_int (renderInt (if m.maximized then 1 else 0)) =
      some (if m.maximized then 1 else 0) := by
    cases m.maximized <;> decide
  have hmain := deserializeChars_fields (serializeChars m) _ _ _ _ _
    (split_fields_serialize m) m.rect.x m.rect.y m.rect.width m.rect.height
    (if m.maximized then 1 else 0)
    (lexical_cast_int_renderInt _ hx.1 hx.2) (lexical_cast_int_renderInt _ hy.1 hy.2)
    (lexical_cast_int_renderInt _ hw.1 hw.2) (lexical_cast_int_renderInt _ hh.1 hh.2)
    h5
  have hdec : (decide ((if m.maximized then (1 : Int) else 0) = 1)) = m.maximized := by
    cases m.maximized <;> decide
  show deserializeChars (serializeChars m) = some m
  rw [hmain, hdec]

/-- Claim C1 witness at a concrete metrics value with a negative
coordinate. -/
theorem serialize_deserialize_roundtrip_witness :
    WindowMetrics.deserialize (WindowMetrics.serialize
        { rect := { x := 10, y := -20, width := 300, height := 400 },
          maximized := true }) =
      some { rect := { x := 10, y := -20, width := 300, height := 400 },
             maximized := true } :=
  serialize_deserialize_roundtrip
    { rect := { x := 10, y := -20, width := 300, height := 400 }, maximized := true }
    ⟨by decide, by decide⟩ ⟨by decide, by decide⟩
    ⟨by decide, by decide⟩ ⟨by decide, by decide⟩

/-- Counterexample to claim C3 as stated: on `"1; 2; 3; 4; x"` the split
yields five fields and every one of the first four parses as an integer, so
the claimed condition for an empty result is false, yet `deserialize` is
empty (the fifth field fails the cast too, which the claim's condition
omits). -/
theorem deserialize_fifth_field_counterexample :
    WindowMetrics.deserialize "1; 2; 3; 4; x" = none ∧
    (split_fields ("1; 2; 3; 4; x".data)).length = 5 ∧
    ((split_fields ("1; 2; 3; 4; x".data)).take 4).all
      (fun t => (lexical_cast_int t).isSome) = true := by
  refine ⟨by decide, by decide, by decide⟩

/-- Claim C3 (amended): `deserialize` yields the empty result exactly when
the split does not yield five fields or some field among the five fails to
parse as an integer; it never raises. -/
theorem deserialize_none_iff (s : String) :
    WindowMetrics.deserialize s = none ↔
      ((split_fields s.data).length ≠ 5 ∨
        ∃ t ∈ split_fields s.data, lexical_cast_int t = none) := by
  show deserializeChars s.data = none ↔ _
  unfold deserializeChars
  generalize split_fields s.data = l
  rcases l with _ | ⟨t0, _ | ⟨t1, _ | ⟨t2, _ | ⟨t3, _ | ⟨t4, _ | ⟨t5, rest⟩⟩⟩⟩⟩⟩
  · simp
  · simp
  · simp
  · simp
  · simp
  · cases hc0 : lexical_cast_int t0 with
    | none => simp [hc0]
    | some v0 =>
      cases hc1 : lexical_cast_int t1 with
      | none => simp [hc0, hc1]
      | some v1 =>
        cases hc2 : lexical_cast_int t2 with
        | none => simp [hc0, hc1, hc2]
        | some v2 =>
          cases hc3 : lexical_cast_int t3 with
          | none => simp [hc0, hc1, hc2, hc3]
          | some v3 =>
            cases hc4 : lexical_cast_int t4 with
            | none => simp [hc0, hc1, hc2, hc3, hc4]
            | some v4 => simp [hc0, hc1, hc2, hc3, hc4]
  · simp

/-- Claim C3 witness: the amended criterion applied to `"1; 2; 3"`. -/
theorem deserialize_none_iff_witness :
    (split_fields ("1; 2; 3".data)).length ≠ 5 ∨
      ∃ t ∈ split_fields ("1; 2; 3".data), lexical_cast_int t = none :=
  (deserialize_none_iff "1; 2; 3").mp (by decide)
